import Mathlib

/-!
Verification of the gallery-builder script `view_imgs.py`.

The script walks an "original" image directory and a list of model
directories, and renders a single self-contained HTML document in which
every image is embedded as a Base64 data URI.

Shallow embedding conventions:
* a filesystem path is its list of components (`List String`);
* the filesystem is a snapshot: an association list from path to raw
  byte contents for regular files, plus the list of directory paths;
* file bytes are `Nat` values (well-formed snapshots bound them by 256);
* Python functions that can raise (reading a path that is not a regular
  file) return `Option`, and `none` models the uncaught exception.
-/

/-- A filesystem path, as its list of components.  The embedding
identifies a path with its resolved component list and renders the
`str()` of a path as the components joined by slashes. -/
abbrev FsPath := List String

/-- Printable form of a path (models `str(path)`). -/
def pathStr (p : FsPath) : String := String.intercalate "/" p

/-- Final component of a path (models `Path.name`; empty for the root). -/
def pathName (p : FsPath) : String := p.getLastD ""

/-- A filesystem snapshot: regular files with their raw bytes, in the
order the operating system enumerates them, and the set of directories. -/
structure FS where
  files : List (FsPath × List Nat)
  dirs : List FsPath

/-- Reading a regular file (models `open(path, "rb").read()`);
`none` when no regular file is at `p`. -/
def FS.read (fs : FS) (p : FsPath) : Option (List Nat) :=
  (fs.files.find? (fun e => e.1 == p)).map (fun e => e.2)

/-- Models `path.is_file()`. -/
def FS.isFile (fs : FS) (p : FsPath) : Bool := (fs.read p).isSome

/-- Models `path.is_dir()`. -/
def FS.isDir (fs : FS) (p : FsPath) : Bool := fs.dirs.contains p

/-- Models `path.exists()`: a regular file or a directory is at `p`. -/
def FS.pathExists (fs : FS) (p : FsPath) : Bool := fs.isFile p || fs.isDir p

/-- Well-formed snapshot: file paths are distinct, directory paths are
distinct, no path is both a file and a directory, and contents are bytes. -/
def FS.WF (fs : FS) : Prop :=
  (fs.files.map Prod.fst).Nodup ∧ fs.dirs.Nodup ∧
    (∀ p ∈ fs.files.map Prod.fst, p ∉ fs.dirs) ∧
    (∀ e ∈ fs.files, ∀ x ∈ e.2, x < 256)

/-- Index of the last occurrence of a dot in a character list
(models `str.rfind`, with `none` for "not found"). -/
def lastDotIdx (l : List Char) : Option Nat :=
  (l.reverse.findIdx? (fun c => c = '.')).map (fun j => l.length - 1 - j)

/-- Models `PurePath.suffix` on a file name: the part of the name from its
last dot, empty when the dot is absent, leading, or trailing
(cpython condition `0 < i < len(name) - 1`). -/
def pySuffix (nm : String) : String :=
  match lastDotIdx nm.data with
  | none => ""
  | some i =>
      if 0 < i ∧ i < nm.data.length - 1 then String.mk (nm.data.drop i) else ""

/-- Models `str.lower` (the strings reaching it here are ASCII). -/
def strToLower (s : String) : String := String.mk (s.data.map Char.toLower)

/-- `IMAGE_EXTS` from the script. -/
def IMAGE_EXTS : List String := [".png", ".jpg", ".jpeg", ".bmp", ".gif", ".webp"]

/-- `DEFAULT_SUBFOLDERS` from the script. -/
def DEFAULT_SUBFOLDERS : List String := ["allResult", "est_center_map", "img_bb"]

/-- The filter of the list comprehension in `list_org_files`: keeps the
name of an `iterdir` entry when it is a regular-file child of `org_dir`
whose suffix, lowercased, is a recognized image extension. -/
def orgFilter (fs : FS) (org_dir : FsPath) (p : FsPath) : Option String :=
  match p.getLast? with
  | some n =>
      if p.dropLast = org_dir ∧ fs.isFile p = true ∧
          strToLower (pySuffix n) ∈ IMAGE_EXTS
      then some n else none
  | none => none

/-- `list_org_files`: names of the regular-file children of `org_dir`
whose suffix, lowercased, is a recognized image extension, sorted.
The children are drawn from the snapshot in enumeration order (files,
then directories, as `iterdir` yields them); the `is_file` check inside
`orgFilter` drops the directory entries and the sort makes the result
canonical. -/
def list_org_files (fs : FS) (org_dir : FsPath) : List String :=
  List.insertionSort (fun a b => a ≤ b)
    ((fs.files.map Prod.fst ++ fs.dirs).filterMap (orgFilter fs org_dir))

/-- The Base64 alphabet. -/
def b64chars : List Char :=
  "ABCDEFGHIJKLMNOPQRSTUVWXYZabcdefghijklmnopqrstuvwxyz0123456789+/".data

/-- Character for a 6-bit group. -/
def b64char (n : Nat) : Char := b64chars.getD n 'A'

/-- Position of a character in the Base64 alphabet. -/
def b64index (c : Char) : Option Nat := b64chars.findIdx? (fun d => d = c)

/-- Models `base64.b64encode` on raw bytes (RFC 4648, with padding). -/
def b64encodeList : List Nat → List Char
  | [] => []
  | [b1] => [b64char (b1 / 4), b64char (b1 % 4 * 16), '=', '=']
  | [b1, b2] =>
      [b64char (b1 / 4), b64char (b1 % 4 * 16 + b2 / 16), b64char (b2 % 16 * 4), '=']
  | b1 :: b2 :: b3 :: rest =>
      b64char (b1 / 4) :: b64char (b1 % 4 * 16 + b2 / 16) ::
        b64char (b2 % 16 * 4 + b3 / 64) :: b64char (b3 % 64) :: b64encodeList rest

/-- Models `base64.b64decode` on a padded Base64 text: groups of four
characters, padding only in the final group; `none` on malformed input. -/
def b64decodeList : List Char → Option (List Nat)
  | [] => some []
  | c1 :: c2 :: c3 :: c4 :: rest =>
      match b64index c1, b64index c2 with
      | some n1, some n2 =>
          if c3 = '=' ∧ c4 = '=' ∧ rest = [] then
            some [n1 * 4 + n2 / 16]
          else
            match b64index c3 with
            | some n3 =>
                if c4 = '=' ∧ rest = [] then
                  some [n1 * 4 + n2 / 16, n2 % 16 * 16 + n3 / 4]
                else
                  match b64index c4, b64decodeList rest with
                  | some n4, some tl =>
                      some ((n1 * 4 + n2 / 16) :: (n2 % 16 * 16 + n3 / 4) ::
                        (n3 % 4 * 64 + n4) :: tl)
                  | _, _ => none
            | none => none
      | _, _ => none
  | _ => none

/-- Models `mimetypes.guess_type` for the file names this script feeds it
(the standard table entries for the recognized image extensions; any
other extension yields `none`, as `guess_type` does for unknown types). -/
def mimetypes_guess_type (nm : String) : Option String :=
  match strToLower (pySuffix nm) with
  | ".png" => some "image/png"
  | ".jpg" => some "image/jpeg"
  | ".jpeg" => some "image/jpeg"
  | ".gif" => some "image/gif"
  | ".bmp" => some "image/bmp"
  | ".webp" => some "image/webp"
  | _ => none

/-- `guess_mime`: the guessed type when available, else the script\x27s own
fallback table on the lowercased suffix, else `application/octet-stream`. -/
def guess_mime (p : FsPath) : String :=
  match mimetypes_guess_type (pathName p) with
  | some mime => mime
  | none =>
      match strToLower (pySuffix (pathName p)) with
      | ".jpg" => "image/jpeg"
      | ".jpeg" => "image/jpeg"
      | ".png" => "image/png"
      | ".gif" => "image/gif"
      | ".bmp" => "image/bmp"
      | ".webp" => "image/webp"
      | _ => "application/octet-stream"

/-- `encode_data_uri`: read the raw bytes and wrap their Base64 encoding
in a data URI; `none` models the exception when no regular file is at
`p`. -/
def encode_data_uri (fs : FS) (p : FsPath) : Option String :=
  (fs.read p).map (fun b =>
    "data:" ++ guess_mime p ++ ";base64," ++ String.mk (b64encodeList b))

/-- One character of `html.escape` (quote=True).  Escaping the ampersand
first and the other characters afterwards is equivalent to this
character-wise map, because no replacement text contains a character
that a later pass would rewrite. -/
def escapeChar (c : Char) : List Char :=
  if c = '&' then "&amp;".data
  else if c = '<' then "&lt;".data
  else if c = '>' then "&gt;".data
  else if c = '"' then "&quot;".data
  else if c = '\x27' then "&#x27;".data
  else [c]

/-- Models `html.escape` with its default `quote=True`. -/
def html_escape (s : String) : String := String.mk (s.data.flatMap escapeChar)

/-- The embedded style sheet, as the f-string renders it for a given
subfolder count and maximum image height. -/
def cssFor (numSub : Nat) (max_height : Nat) : String :=
  "\n    :root \x7b\n      --cell-pad: 8px;\n      --card-bg: #0c1117;\n" ++
  "      --card-bd: #1e2530;\n      --missing-bg: #3f1d1d;\n" ++
  "      --missing-bd: #7f1d1d;\n      --text-dim: #a1adb9;\n    \x7d\n" ++
  "    html,body\x7bbackground:#0b0c10;color:#e6edf3;margin:0\x7d\n" ++
  "    .page\x7bmax-width:1400px;margin:0 auto;padding:24px\x7d\n" ++
  "    h1\x7bfont-size:22px;margin:0 0 8px\x7d\n" ++
  "    .meta\x7bfont-size:12px;color:#9da7b3;margin-bottom:18px\x7d\n" ++
  "    .block\x7bbackground:#0e141b;border:1px solid #1f2630;border-radius:14px;margin:18px 0;overflow:hidden\x7d\n" ++
  "    .block_head\x7bdisplay:flex;justify-content:space-between;align-items:center;padding:12px 16px;background:#111821;border-bottom:1px solid #1f2630\x7d\n" ++
  "    .fname\x7bfont-weight:700\x7d\n" ++
  "    .chips\x7bfont-size:12px;color:#9da7b3\x7d\n" ++
  "    .grid\x7bdisplay:grid;gap:10px;padding:12px 12px 18px 12px;grid-template-columns:\n" ++
  "           minmax(220px, 1fr) repeat(" ++ toString numSub ++
  ", minmax(220px, 1fr));\x7d\n" ++
  "    .hdr\x7bfont-size:12px;color:#9cd1ff;align-self:end\x7d\n" ++
  "    .cell\x7bbackground:var(--card-bg);border:1px solid var(--card-bd);border-radius:10px;padding:var(--cell-pad)\x7d\n" ++
  "    .label\x7bfont-size:12px;color:var(--text-dim);margin:2px 0 6px 0\x7d\n" ++
  "    img\x7bmax-height:" ++ toString max_height ++
  "px;max-width:100%;display:block;border-radius:6px\x7d\n" ++
  "    .missing\x7bfont-size:12px;color:#fca5a5;padding:6px 8px;border:1px solid var(--missing-bd);\n" ++
  "              background:var(--missing-bg);border-radius:6px\x7d\n" ++
  "    .center\x7bdisplay:flex;align-items:center;justify-content:center;min-height:60px\x7d\n" ++
  "    .placeholder\x7bbackground:transparent;border:0\x7d\n    "

/-- Opening line of a regular cell. -/
def cellOpenStr : String := "<div class=\x27cell\x27>"

/-- Closing line of a cell. -/
def cellCloseStr : String := "</div>"

/-- Label line of a model cell. -/
def labelLine (label sub : String) : String :=
  "<div class=\x27label\x27>" ++ html_escape label ++ " / " ++ html_escape sub ++ "</div>"

/-- Label line of the original-image cell. -/
def orgLabelLine : String := "<div class=\x27label\x27>org_img</div>"

/-- An embedded image line. -/
def imgLine (uri alt : String) : String :=
  "<img src=\x27" ++ uri ++ "\x27 alt=\x27" ++ alt ++ "\x27>"

/-- Missing-image marker line of a model cell. -/
def missingLine : String := "<div class=\x27missing\x27>MISSING</div>"

/-- Cell shown when the original image itself is absent. -/
def orgMissingLine : String :=
  "<div class=\x27cell center\x27><div class=\x27missing\x27>Original MISSING</div></div>"

/-- Cell shown in place of model cells when no model was given. -/
def noModelLine : String :=
  "<div class=\x27cell center\x27><div class=\x27missing\x27>No model</div></div>"

/-- Empty placeholder cell under the original-image column. -/
def placeholderLine : String := "<div class=\x27cell placeholder\x27></div>"

/-- The cell of the original image for one reference filename
(`build_html`, the `org_path` branch). -/
def orgCellParts (fs : FS) (org_dir : FsPath) (fname : String) : Option (List String) :=
  if fs.pathExists (org_dir ++ [fname]) then
    (encode_data_uri fs (org_dir ++ [fname])).map (fun uri =>
      [cellOpenStr, orgLabelLine, imgLine uri ("org:" ++ html_escape fname), cellCloseStr])
  else some [orgMissingLine]

/-- The cell of one (model, subfolder) pair for one reference filename. -/
def modelCellParts (fs : FS) (m : FsPath) (label sub fname : String) :
    Option (List String) :=
  if fs.pathExists (m ++ [sub, fname]) then
    (encode_data_uri fs (m ++ [sub, fname])).map (fun uri =>
      [cellOpenStr, labelLine label sub,
        imgLine uri (html_escape label ++ "/" ++ html_escape sub ++ ":" ++ html_escape fname),
        cellCloseStr])
  else some [cellOpenStr, labelLine label sub, missingLine, cellCloseStr]

/-- Sequence a fallible map over a list, stopping at the first failure
(the shape of a Python loop that may raise). -/
def optMap {α β : Type _} (f : α → Option β) : List α → Option (List β)
  | [] => some []
  | a :: l =>
      match f a, optMap f l with
      | some b, some r => some (b :: r)
      | _, _ => none

/-- The cells of one model across all subfolders for one reference
filename (one inner loop of `build_html`). -/
def modelRowCells (fs : FS) (m : FsPath) (label : String) (subfolders : List String)
    (fname : String) : Option (List String) :=
  (optMap (fun sub => modelCellParts fs m label sub fname) subfolders).map List.flatten

/-- Section header lines for one reference filename: the block head and
the header row (a blank header over the original column, then one header
per subfolder). -/
def headParts (subfolders : List String) (fname : String) : List String :=
  ["<section class=\x27block\x27>",
    "<div class=\x27block_head\x27>",
    "<div class=\x27fname\x27>" ++ html_escape fname ++ "</div>",
    "<div class=\x27chips\x27>org + per-folder model comparison</div>",
    "</div>",
    "<div class=\x27grid\x27>",
    "<div class=\x27hdr\x27></div>"] ++
  subfolders.map (fun sub => "<div class=\x27hdr\x27>" ++ html_escape sub ++ "</div>")

/-- The first cell row after the original-image cell: the first model
across the subfolders (`models[0]` labelled `model_labels[0]`), or the
no-model placeholders when no model was given. -/
def firstRow (fs : FS) (models : List FsPath) (subfolders : List String)
    (fname : String) : Option (List String) :=
  match models with
  | m0 :: _ => modelRowCells fs m0 (pathName m0) subfolders fname
  | [] => some (subfolders.map (fun _ => noModelLine))

/-- One of the later rows (`models[1:]`): an empty placeholder under the
original column, then the model cells. -/
def laterRow (fs : FS) (subfolders : List String) (fname : String)
    (ml : FsPath × String) : Option (List String) :=
  (modelRowCells fs ml.1 ml.2 subfolders fname).map (fun cs => placeholderLine :: cs)

def sectionParts (fs : FS) (org_dir : FsPath) (models : List FsPath)
    (subfolders : List String) (fname : String) : Option (List String) :=
  match orgCellParts fs org_dir fname with
  | none => none
  | some orgc =>
    match firstRow fs models subfolders fname with
    | none => none
    | some r1 =>
      match optMap (laterRow fs subfolders fname)
          ((models.drop 1).zip ((models.map pathName).drop 1)) with
      | none => none
      | some rows =>
        some (headParts subfolders fname ++ orgc ++ r1 ++ rows.flatten ++
          ["</div>", "</section>"])

/-- The document lines before the first section: doctype, head, style,
and the metadata line naming the input directories. -/
def prefixParts (org_dir : FsPath) (models : List FsPath) (subfolders : List String)
    (title : String) (max_height : Nat) : List String :=
  ["<!DOCTYPE html>",
    "<html lang=\x27ja\x27><head><meta charset=\x27utf-8\x27>",
    "<title>" ++ html_escape title ++ "</title>",
    "<meta name=\x27viewport\x27 content=\x27width=device-width,initial-scale=1\x27>",
    "<style>", cssFor subfolders.length max_height, "</style>",
    "</head><body><div class=\x27page\x27>",
    "<h1>" ++ html_escape title ++ "</h1>",
    "<div class=\x27meta\x27>",
    "Org: <code>" ++ html_escape (pathStr org_dir) ++ "</code> | ",
    "Models: " ++ String.intercalate ", "
      (models.map (fun m => "<code>" ++ html_escape (pathStr m) ++ "</code>")) ++ " | ",
    "Folders: " ++ String.intercalate ", "
      (subfolders.map (fun s => "<code>" ++ html_escape s ++ "</code>")),
    "</div>"]

/-- All lines of the document (`parts` at the end of `build_html`);
`none` models an uncaught exception while embedding an image. -/
def build_parts (fs : FS) (org_dir : FsPath) (models : List FsPath)
    (subfolders : List String) (title : String) (max_height : Nat) :
    Option (List String) :=
  match optMap (sectionParts fs org_dir models subfolders)
      (list_org_files fs org_dir) with
  | none => none
  | some secs =>
      some (prefixParts org_dir models subfolders title max_height ++
        secs.flatten ++ ["</div></body></html>"])

/-- `build_html`: the document lines joined with newlines. -/
def build_html (fs : FS) (org_dir : FsPath) (models : List FsPath)
    (subfolders : List String) (title : String) (max_height : Nat) : Option String :=
  (build_parts fs org_dir models subfolders title max_height).map
    (String.intercalate "\n")

/-- Parsed command-line arguments of the script. -/
structure Args where
  org : FsPath
  models : List FsPath
  folders : Option (List String)
  out : FsPath
  title : String
  max_height : Nat

/-- Outcome of a run: either a non-zero exit with a message and nothing
written, or a zero exit having written exactly the output file. -/
inductive MainResult
  | err (msg : String)
  | ok (out : FsPath) (content : String)

/-- `main`: validate the directories, pick the subfolder list (the
default also replaces an empty `--folders` list, by Python truthiness),
build the document, and write it.  `MainResult.err` covers both the
explicit `SystemExit` and an uncaught exception from `build_html`; in
either case nothing has been written, because the output path is only
touched after `build_html` returns. -/
def effFolders (a : Args) : List String :=
  match a.folders with
  | some l => if l.isEmpty then DEFAULT_SUBFOLDERS else l
  | none => DEFAULT_SUBFOLDERS

def main_run (fs : FS) (a : Args) : MainResult :=
  if fs.isDir a.org = false then
    .err ("[ERROR] org dir not found or not a directory: " ++ pathStr a.org)
  else
    match a.models.find? (fun m => ! fs.isDir m) with
    | some m => .err ("[ERROR] model dir not found or not a directory: " ++ pathStr m)
    | none =>
      match build_html fs a.org a.models (effFolders a) a.title a.max_height with
      | some s => .ok a.out s
      | none => .err "unhandled exception while building the document"

lemma b64index_b64char : ∀ n : Nat, n < 64 → b64index (b64char n) = some n := by
  decide

lemma b64char_ne_pad : ∀ n : Nat, n < 64 → b64char n ≠ '=' := by
  decide

/-- Decoding inverts encoding on byte lists. -/
theorem b64_roundtrip : ∀ bs : List Nat, (∀ x ∈ bs, x < 256) →
    b64decodeList (b64encodeList bs) = some bs
  | [], _ => rfl
  | [b1], h => by
      have hb1 : b1 < 256 := h b1 (by simp)
      have e1 := b64index_b64char (b1 / 4) (by omega)
      have e2 := b64index_b64char (b1 % 4 * 16) (by omega)
      simp only [b64encodeList, b64decodeList, e1, e2]
      simp only [and_self, if_true, reduceIte, Option.some.injEq, List.cons.injEq,
        and_true]
      omega
  | [b1, b2], h => by
      have hb1 : b1 < 256 := h b1 (by simp)
      have hb2 : b2 < 256 := h b2 (by simp)
      have e1 := b64index_b64char (b1 / 4) (by omega)
      have e2 := b64index_b64char (b1 % 4 * 16 + b2 / 16) (by omega)
      have e3 := b64index_b64char (b2 % 16 * 4) (by omega)
      have n3 := b64char_ne_pad (b2 % 16 * 4) (by omega)
      simp only [b64encodeList, b64decodeList, e1, e2, e3]
      rw [if_neg (by simp [n3])]
      rw [if_pos (by simp)]
      simp only [Option.some.injEq, List.cons.injEq, and_true]
      omega
  | b1 :: b2 :: b3 :: rest, h => by
      have hb1 : b1 < 256 := h b1 (by simp)
      have hb2 : b2 < 256 := h b2 (by simp)
      have hb3 : b3 < 256 := h b3 (by simp)
      have hr := b64_roundtrip rest (fun x hx => h x (by simp [hx]))
      have e1 := b64index_b64char (b1 / 4) (by omega)
      have e2 := b64index_b64char (b1 % 4 * 16 + b2 / 16) (by omega)
      have e3 := b64index_b64char (b2 % 16 * 4 + b3 / 64) (by omega)
      have e4 := b64index_b64char (b3 % 64) (by omega)
      have n3 := b64char_ne_pad (b2 % 16 * 4 + b3 / 64) (by omega)
      cases rest with
      | nil =>
          have n4 := b64char_ne_pad (b3 % 64) (by omega)
          simp only [b64encodeList, b64decodeList, e1, e2, e3, e4]
          rw [if_neg (by simp [n3])]
          rw [if_neg (by simp [n4])]
          simp only [b64encodeList] at hr
          simp only [b64decodeList, hr, Option.some.injEq, List.cons.injEq, and_true]
          omega
      | cons c cs =>
          have hne : b64encodeList (c :: cs) ≠ [] := by
            cases cs with
            | nil => simp [b64encodeList]
            | cons d ds =>
                cases ds with
                | nil => simp [b64encodeList]
                | cons e es => simp [b64encodeList]
          simp only [b64encodeList, b64decodeList, e1, e2, e3, e4]
          rw [if_neg (by simp [n3])]
          rw [if_neg (by simp [hne])]
          simp only [hr, Option.some.injEq, List.cons.injEq, and_true]
          omega

/-- With distinct file paths, reading returns exactly the recorded bytes. -/
lemma read_eq_some_iff {fs : FS} (hk : (fs.files.map Prod.fst).Nodup)
    {p : FsPath} {b : List Nat} : fs.read p = some b ↔ (p, b) ∈ fs.files := by
  constructor
  · intro h
    unfold FS.read at h
    cases hf : fs.files.find? (fun e => e.1 == p) with
    | none => simp [hf] at h
    | some e =>
        simp only [hf, Option.map_some] at h
        have he : e ∈ fs.files := List.mem_of_find?_eq_some hf
        have hp : e.1 = p := by simpa using List.find?_some hf
        have : e = (p, b) := by
          cases e; simp_all
        rwa [this] at he
  · intro h
    have hs : (fs.files.find? (fun e => e.1 == p)).isSome := by
      rw [List.find?_isSome]
      exact ⟨(p, b), h, by simp⟩
    cases hf : fs.files.find? (fun e => e.1 == p) with
    | none => rw [hf] at hs; simp at hs
    | some e =>
        have he : e ∈ fs.files := List.mem_of_find?_eq_some hf
        have hp : e.1 = p := by simpa using List.find?_some hf
        have : e = (p, b) := by
          have := List.inj_on_of_nodup_map hk he h (by simp [hp])
          cases e
          simp only [Prod.mk.injEq]
          exact ⟨hp, congrArg Prod.snd this⟩
    -- derive read value
        unfold FS.read
        rw [hf, this]
        rfl

lemma isFile_iff_mem_keys {fs : FS} {p : FsPath} :
    fs.isFile p = true ↔ p ∈ fs.files.map Prod.fst := by
  unfold FS.isFile FS.read
  cases hf : fs.files.find? (fun e => e.1 == p) with
  | none =>
      simp only [Option.map_none', Option.isSome_none, Bool.false_eq_true, false_iff]
      intro hmem
      obtain ⟨e, he, hp⟩ := List.mem_map.mp hmem
      have hne := List.find?_eq_none.mp hf e he
      simp [hp] at hne
  | some e =>
      have he : e ∈ fs.files := List.mem_of_find?_eq_some hf
      have hp : e.1 = p := by simpa using List.find?_some hf
      simp only [Option.map_some', Option.isSome_some, true_iff]
      exact List.mem_map.mpr ⟨e, he, hp⟩

/-- What the comprehension filter accepts. -/
lemma orgFilter_eq_some_iff {fs : FS} {org_dir p : FsPath} {n : String} :
    orgFilter fs org_dir p = some n ↔
      p = org_dir ++ [n] ∧ fs.isFile (org_dir ++ [n]) = true ∧
        strToLower (pySuffix n) ∈ IMAGE_EXTS := by
  unfold orgFilter
  constructor
  · intro h
    split at h
    · next n' hlast =>
        split at h
        · next hcond =>
            obtain rfl : n' = n := by simpa using h
            obtain ⟨l', rfl⟩ := List.getLast?_eq_some_iff.mp hlast
            rw [List.dropLast_concat] at hcond
            obtain ⟨rfl, hf, he⟩ := hcond
            exact ⟨rfl, hf, he⟩
        · simp at h
    · simp at h
  · rintro ⟨rfl, hf, he⟩
    simp only [List.getLast?_concat, List.dropLast_concat]
    rw [if_pos ⟨trivial, hf, he⟩]

lemma mem_list_org_files_iff {fs : FS} {org_dir : FsPath} {n : String} :
    n ∈ list_org_files fs org_dir ↔
      fs.isFile (org_dir ++ [n]) = true ∧ strToLower (pySuffix n) ∈ IMAGE_EXTS := by
  unfold list_org_files
  rw [List.mem_insertionSort, List.mem_filterMap]
  constructor
  · rintro ⟨p, _, hmatch⟩
    exact (orgFilter_eq_some_iff.mp hmatch).2
  · rintro ⟨hf, he⟩
    exact ⟨org_dir ++ [n],
      List.mem_append.mpr (Or.inl (isFile_iff_mem_keys.mp hf)),
      orgFilter_eq_some_iff.mpr ⟨rfl, hf, he⟩⟩

/-- In a well-formed snapshot the directory entries contribute nothing:
the listing is a permutation of the accepted file entries. -/
lemma list_org_files_perm {fs : FS} (hwf : fs.WF) (org_dir : FsPath) :
    List.Perm (list_org_files fs org_dir)
      ((fs.files.map Prod.fst).filterMap (orgFilter fs org_dir)) := by
  obtain ⟨hk, _, hdisj, _⟩ := hwf
  have hdirs : fs.dirs.filterMap (orgFilter fs org_dir) = [] := by
    rw [List.filterMap_eq_nil_iff]
    intro p hp
    cases hor : orgFilter fs org_dir p with
    | none => rfl
    | some n =>
        obtain ⟨rfl, hf, _⟩ := orgFilter_eq_some_iff.mp hor
        exact absurd hp (hdisj _ (isFile_iff_mem_keys.mp hf))
  unfold list_org_files
  rw [List.filterMap_append, hdirs, List.append_nil]
  exact List.perm_insertionSort _ _

lemma list_org_files_sorted (fs : FS) (org_dir : FsPath) :
    List.Sorted (fun a b => a ≤ b) (list_org_files fs org_dir) :=
  List.sorted_insertionSort _ _

lemma list_org_files_nodup {fs : FS} (hwf : fs.WF) (org_dir : FsPath) :
    (list_org_files fs org_dir).Nodup := by
  rw [(list_org_files_perm hwf org_dir).nodup_iff]
  refine List.Nodup.filterMap ?_ hwf.1
  intro a a' b hb hb'
  have ha := (orgFilter_eq_some_iff.mp (by simpa using hb)).1
  have ha' := (orgFilter_eq_some_iff.mp (by simpa using hb')).1
  rw [ha, ha']

lemma mimetypes_none {nm : String}
    (h : strToLower (pySuffix nm) ∉ IMAGE_EXTS) : mimetypes_guess_type nm = none := by
  unfold mimetypes_guess_type
  split <;> try rfl
  all_goals (rename_i heq; rw [heq] at h; simp [IMAGE_EXTS] at h)

/-- With a suffix outside every recognized extension, the MIME type
falls back to the generic binary type. -/
lemma guess_mime_default {p : FsPath}
    (h : strToLower (pySuffix (pathName p)) ∉ IMAGE_EXTS) :
    guess_mime p = "application/octet-stream" := by
  unfold guess_mime
  simp only [mimetypes_none h]
  split <;> try rfl
  all_goals (rename_i heq; rw [heq] at h; simp [IMAGE_EXTS] at h)

/-- C2: for every directory, discovery returns exactly the names of its
regular-file children bearing a recognized image extension
(case-insensitively), sorted lexicographically and free of duplicates
and of non-image entries; and the document iterates its sections in
exactly this order. -/
theorem claim_C2 (fs : FS) (org_dir : FsPath) (hwf : fs.WF) :
    List.Sorted (fun a b => a ≤ b) (list_org_files fs org_dir) ∧
    (list_org_files fs org_dir).Nodup ∧
    (∀ n, n ∈ list_org_files fs org_dir ↔
        fs.isFile (org_dir ++ [n]) = true ∧ strToLower (pySuffix n) ∈ IMAGE_EXTS) ∧
    (list_org_files fs org_dir).length =
      ((fs.files.map Prod.fst).filterMap (orgFilter fs org_dir)).length ∧
    (∀ models subfolders title max_height secs,
        optMap (sectionParts fs org_dir models subfolders)
            (list_org_files fs org_dir) = some secs →
        build_parts fs org_dir models subfolders title max_height =
          some (prefixParts org_dir models subfolders title max_height ++
            secs.flatten ++ ["</div></body></html>"])) := by
  refine ⟨list_org_files_sorted fs org_dir, list_org_files_nodup hwf org_dir,
    fun n => mem_list_org_files_iff, (list_org_files_perm hwf org_dir).length_eq, ?_⟩
  intro models subfolders title max_height secs h
  unfold build_parts
  rw [h]

/-- C3: an embedded image renders as `data:<mime>;base64,<payload>`,
with the MIME type guessed from the extension (generic binary type when
unrecognized), and Base64-decoding the payload restores the exact bytes. -/
theorem claim_C3 (fs : FS) (p : FsPath) (bytes : List Nat)
    (hr : fs.read p = some bytes) (hb : ∀ x ∈ bytes, x < 256) :
    ∃ payload : String,
      encode_data_uri fs p =
        some ("data:" ++ guess_mime p ++ ";base64," ++ payload) ∧
      b64decodeList payload.data = some bytes ∧
      (strToLower (pySuffix (pathName p)) ∉ IMAGE_EXTS →
        guess_mime p = "application/octet-stream") := by
  refine ⟨String.mk (b64encodeList bytes), ?_, ?_, fun h => guess_mime_default h⟩
  · unfold encode_data_uri
    rw [hr]
    rfl
  · exact b64_roundtrip bytes hb

/-- A small concrete snapshot used to witness the theorems: an original
directory with one image and one non-image file, and two model
directories, one of which lacks the image in its second subfolder. -/
def fsW : FS :=
  ⟨[(["org", "a.png"], [1, 2, 3]), (["org", "b.txt"], [4]),
    (["mA", "s1", "a.png"], [255]), (["mB", "s1", "a.png"], [0, 0])],
   [["org"], ["mA"], ["mB"], ["mA", "s1"], ["mB", "s1"], ["mA", "s2"], ["mB", "s2"]]⟩

theorem claim_C2_witness :
    fsW.WF ∧ list_org_files fsW ["org"] = ["a.png"] ∧
      List.Sorted (fun a b => a ≤ b) (list_org_files fsW ["org"]) :=
  ⟨by unfold FS.WF; decide, by rfl,
    (claim_C2 fsW ["org"] (by unfold FS.WF; decide)).1⟩

theorem claim_C3_witness :
    ∃ payload : String,
      encode_data_uri fsW ["org", "a.png"] =
        some ("data:" ++ guess_mime ["org", "a.png"] ++ ";base64," ++ payload) ∧
      b64decodeList payload.data = some [1, 2, 3] ∧
      (strToLower (pySuffix (pathName ["org", "a.png"])) ∉ IMAGE_EXTS →
        guess_mime ["org", "a.png"] = "application/octet-stream") :=
  claim_C3 fsW ["org", "a.png"] [1, 2, 3] (by rfl) (by decide)

/-- Boolean "the string starts with the marker". -/
def strStarts (pre s : String) : Bool := pre.data.isPrefixOf s.data

/-- Marker of the opening line of any cell div (plain, center, or
placeholder variants all extend it). -/
def cellMark : String := "<div class=\x27cell"

/-- Marker of a header-row div. -/
def hdrMark : String := "<div class=\x27hdr"

/-- Marker of an embedded image line. -/
def imgMark : String := "<img"

/-- Number of cell divs among the given document lines. -/
def countCell (parts : List String) : Nat :=
  parts.countP (fun s => strStarts cellMark s)

/-- Number of header divs among the given document lines. -/
def countHdr (parts : List String) : Nat :=
  parts.countP (fun s => strStarts hdrMark s)

/-- Whether some line is an image tag. -/
def hasImg (parts : List String) : Bool :=
  parts.any (fun s => strStarts imgMark s)

lemma isPrefixOf_append_left_true {l m : List Char} (r : List Char)
    (h : l.isPrefixOf m = true) : l.isPrefixOf (m ++ r) = true := by
  induction l generalizing m with
  | nil => simp [List.isPrefixOf]
  | cons a l ih =>
      cases m with
      | nil => simp [List.isPrefixOf] at h
      | cons b m =>
          simp only [List.isPrefixOf, List.cons_append, Bool.and_eq_true] at h ⊢
          exact ⟨h.1, ih h.2⟩

lemma isPrefixOf_append_left_false {l m : List Char} (r : List Char)
    (h1 : l.isPrefixOf m = false) (h2 : m.isPrefixOf l = false) :
    l.isPrefixOf (m ++ r) = false := by
  induction l generalizing m with
  | nil => simp [List.isPrefixOf] at h1
  | cons a l ih =>
      cases m with
      | nil => simp [List.isPrefixOf] at h2
      | cons b m =>
          simp only [List.isPrefixOf, List.cons_append, Bool.and_eq_false_iff] at h1 h2 ⊢
          rcases h1 with h1 | h1
          · exact Or.inl h1
          · rcases h2 with h2 | h2
            · left
              cases hab : a == b
              · rfl
              · have hab2 : a = b := by simpa using hab
                subst hab2
                simp at h2
            · exact Or.inr (ih h1 h2)

lemma strStarts_appendL_false {pre lit : String} (rest : String)
    (h1 : pre.data.isPrefixOf lit.data = false)
    (h2 : lit.data.isPrefixOf pre.data = false) :
    strStarts pre (lit ++ rest) = false := by
  unfold strStarts
  rw [String.data_append]
  exact isPrefixOf_append_left_false _ h1 h2

lemma strStarts_appendL_true {pre lit : String} (rest : String)
    (h : pre.data.isPrefixOf lit.data = true) :
    strStarts pre (lit ++ rest) = true := by
  unfold strStarts
  rw [String.data_append]
  exact isPrefixOf_append_left_true _ h

@[simp] lemma cellMark_cellOpen : strStarts cellMark (cellOpenStr) = true := by decide

@[simp] lemma hdrMark_cellOpen : strStarts hdrMark (cellOpenStr) = false := by decide

@[simp] lemma imgMark_cellOpen : strStarts imgMark (cellOpenStr) = false := by decide

@[simp] lemma cellMark_cellClose : strStarts cellMark (cellCloseStr) = false := by decide

@[simp] lemma hdrMark_cellClose : strStarts hdrMark (cellCloseStr) = false := by decide

@[simp] lemma imgMark_cellClose : strStarts imgMark (cellCloseStr) = false := by decide

@[simp] lemma cellMark_missing : strStarts cellMark (missingLine) = false := by decide

@[simp] lemma hdrMark_missing : strStarts hdrMark (missingLine) = false := by decide

@[simp] lemma imgMark_missing : strStarts imgMark (missingLine) = false := by decide

@[simp] lemma cellMark_orgMissing : strStarts cellMark (orgMissingLine) = true := by decide

@[simp] lemma hdrMark_orgMissing : strStarts hdrMark (orgMissingLine) = false := by decide

@[simp] lemma imgMark_orgMissing : strStarts imgMark (orgMissingLine) = false := by decide

@[simp] lemma cellMark_noModel : strStarts cellMark (noModelLine) = true := by decide

@[simp] lemma hdrMark_noModel : strStarts hdrMark (noModelLine) = false := by decide

@[simp] lemma imgMark_noModel : strStarts imgMark (noModelLine) = false := by decide

@[simp] lemma cellMark_placeholder : strStarts cellMark (placeholderLine) = true := by decide

@[simp] lemma hdrMark_placeholder : strStarts hdrMark (placeholderLine) = false := by decide

@[simp] lemma imgMark_placeholder : strStarts imgMark (placeholderLine) = false := by decide

@[simp] lemma cellMark_orgLabel : strStarts cellMark (orgLabelLine) = false := by decide

@[simp] lemma hdrMark_orgLabel : strStarts hdrMark (orgLabelLine) = false := by decide

@[simp] lemma imgMark_orgLabel : strStarts imgMark (orgLabelLine) = false := by decide

@[simp] lemma cellMark_sectionOpen : strStarts cellMark ("<section class=\x27block\x27>") = false := by decide

@[simp] lemma hdrMark_sectionOpen : strStarts hdrMark ("<section class=\x27block\x27>") = false := by decide

@[simp] lemma imgMark_sectionOpen : strStarts imgMark ("<section class=\x27block\x27>") = false := by decide

@[simp] lemma cellMark_blockHead : strStarts cellMark ("<div class=\x27block_head\x27>") = false := by decide

@[simp] lemma hdrMark_blockHead : strStarts hdrMark ("<div class=\x27block_head\x27>") = false := by decide

@[simp] lemma imgMark_blockHead : strStarts imgMark ("<div class=\x27block_head\x27>") = false := by decide

@[simp] lemma cellMark_chips : strStarts cellMark ("<div class=\x27chips\x27>org + per-folder model comparison</div>") = false := by decide

@[simp] lemma hdrMark_chips : strStarts hdrMark ("<div class=\x27chips\x27>org + per-folder model comparison</div>") = false := by decide

@[simp] lemma imgMark_chips : strStarts imgMark ("<div class=\x27chips\x27>org + per-folder model comparison</div>") = false := by decide

@[simp] lemma cellMark_divClose : strStarts cellMark ("</div>") = false := by decide

@[simp] lemma hdrMark_divClose : strStarts hdrMark ("</div>") = false := by decide

@[simp] lemma imgMark_divClose : strStarts imgMark ("</div>") = false := by decide

@[simp] lemma cellMark_gridOpen : strStarts cellMark ("<div class=\x27grid\x27>") = false := by decide

@[simp] lemma hdrMark_gridOpen : strStarts hdrMark ("<div class=\x27grid\x27>") = false := by decide

@[simp] lemma imgMark_gridOpen : strStarts imgMark ("<div class=\x27grid\x27>") = false := by decide

@[simp] lemma cellMark_hdrBlank : strStarts cellMark ("<div class=\x27hdr\x27></div>") = false := by decide

@[simp] lemma hdrMark_hdrBlank : strStarts hdrMark ("<div class=\x27hdr\x27></div>") = true := by decide

@[simp] lemma imgMark_hdrBlank : strStarts imgMark ("<div class=\x27hdr\x27></div>") = false := by decide

@[simp] lemma cellMark_sectionClose : strStarts cellMark ("</section>") = false := by decide

@[simp] lemma hdrMark_sectionClose : strStarts hdrMark ("</section>") = false := by decide

@[simp] lemma imgMark_sectionClose : strStarts imgMark ("</section>") = false := by decide

@[simp] lemma cellMark_labelLine (label sub : String) :
    strStarts cellMark (labelLine label sub) = false := by
  unfold labelLine
  simp only [String.append_assoc]
  exact strStarts_appendL_false _ (by decide) (by decide)

@[simp] lemma hdrMark_labelLine (label sub : String) :
    strStarts hdrMark (labelLine label sub) = false := by
  unfold labelLine
  simp only [String.append_assoc]
  exact strStarts_appendL_false _ (by decide) (by decide)

@[simp] lemma imgMark_labelLine (label sub : String) :
    strStarts imgMark (labelLine label sub) = false := by
  unfold labelLine
  simp only [String.append_assoc]
  exact strStarts_appendL_false _ (by decide) (by decide)

@[simp] lemma cellMark_imgLine (uri alt : String) :
    strStarts cellMark (imgLine uri alt) = false := by
  unfold imgLine
  simp only [String.append_assoc]
  exact strStarts_appendL_false _ (by decide) (by decide)

@[simp] lemma hdrMark_imgLine (uri alt : String) :
    strStarts hdrMark (imgLine uri alt) = false := by
  unfold imgLine
  simp only [String.append_assoc]
  exact strStarts_appendL_false _ (by decide) (by decide)

@[simp] lemma imgMark_imgLine (uri alt : String) :
    strStarts imgMark (imgLine uri alt) = true := by
  unfold imgLine
  simp only [String.append_assoc]
  exact strStarts_appendL_true _ (by decide)

@[simp] lemma cellMark_fnameLine (fname : String) :
    strStarts cellMark ("<div class=\x27fname\x27>" ++ html_escape fname ++ "</div>") =
      false := by
  simp only [String.append_assoc]
  exact strStarts_appendL_false _ (by decide) (by decide)

@[simp] lemma hdrMark_fnameLine (fname : String) :
    strStarts hdrMark ("<div class=\x27fname\x27>" ++ html_escape fname ++ "</div>") =
      false := by
  simp only [String.append_assoc]
  exact strStarts_appendL_false _ (by decide) (by decide)

@[simp] lemma imgMark_fnameLine (fname : String) :
    strStarts imgMark ("<div class=\x27fname\x27>" ++ html_escape fname ++ "</div>") =
      false := by
  simp only [String.append_assoc]
  exact strStarts_appendL_false _ (by decide) (by decide)

@[simp] lemma cellMark_hdrLine (sub : String) :
    strStarts cellMark ("<div class=\x27hdr\x27>" ++ html_escape sub ++ "</div>") =
      false := by
  simp only [String.append_assoc]
  exact strStarts_appendL_false _ (by decide) (by decide)

@[simp] lemma hdrMark_hdrLine (sub : String) :
    strStarts hdrMark ("<div class=\x27hdr\x27>" ++ html_escape sub ++ "</div>") =
      true := by
  simp only [String.append_assoc]
  exact strStarts_appendL_true _ (by decide)

@[simp] lemma imgMark_hdrLine (sub : String) :
    strStarts imgMark ("<div class=\x27hdr\x27>" ++ html_escape sub ++ "</div>") =
      false := by
  simp only [String.append_assoc]
  exact strStarts_appendL_false _ (by decide) (by decide)

lemma counts_modelCell {fs : FS} {m : FsPath} {label sub fname : String}
    {cs : List String} (h : modelCellParts fs m label sub fname = some cs) :
    countCell cs = 1 ∧ countHdr cs = 0 := by
  unfold modelCellParts at h
  split at h
  · cases he : encode_data_uri fs (m ++ [sub, fname]) with
    | none => rw [he] at h; simp at h
    | some uri =>
        rw [he] at h
        simp only [Option.map_some', Option.some.injEq] at h
        subst h
        constructor <;> simp [countCell, countHdr, List.countP_cons, List.countP_nil]
  · simp only [Option.some.injEq] at h
    subst h
    constructor <;> simp [countCell, countHdr, List.countP_cons, List.countP_nil]

lemma counts_orgCell {fs : FS} {org_dir : FsPath} {fname : String}
    {cs : List String} (h : orgCellParts fs org_dir fname = some cs) :
    countCell cs = 1 ∧ countHdr cs = 0 := by
  unfold orgCellParts at h
  split at h
  · cases he : encode_data_uri fs (org_dir ++ [fname]) with
    | none => rw [he] at h; simp at h
    | some uri =>
        rw [he] at h
        simp only [Option.map_some', Option.some.injEq] at h
        subst h
        constructor <;> simp [countCell, countHdr, List.countP_cons, List.countP_nil]
  · simp only [Option.some.injEq] at h
    subst h
    constructor <;> simp [countCell, countHdr, List.countP_cons, List.countP_nil]

lemma countP_flatten_optMap {α : Type _} {f : α → Option (List String)} {l : List α}
    {cs : List (List String)} (h : optMap f l = some cs) (p : String → Bool) (k : Nat)
    (hk : ∀ a ∈ l, ∀ b, f a = some b → b.countP p = k) :
    cs.flatten.countP p = k * l.length := by
  induction l generalizing cs with
  | nil =>
      unfold optMap at h
      simp only [Option.some.injEq] at h
      subst h
      simp
  | cons a l ih =>
      unfold optMap at h
      cases hfa : f a with
      | none => rw [hfa] at h; simp at h
      | some b =>
          rw [hfa] at h
          cases ho : optMap f l with
          | none => rw [ho] at h; simp at h
          | some cs' =>
              rw [ho] at h
              simp only [Option.some.injEq] at h
              subst h
              simp only [List.flatten_cons, List.countP_append]
              rw [hk a (by simp) b hfa, ih ho (fun x hx b hb => hk x (by simp [hx]) b hb)]
              rw [List.length_cons, Nat.mul_succ]
              omega

lemma counts_row {fs : FS} {m : FsPath} {label : String} {subs : List String}
    {fname : String} {r : List String}
    (h : modelRowCells fs m label subs fname = some r) :
    countCell r = subs.length ∧ countHdr r = 0 := by
  unfold modelRowCells at h
  cases ho : optMap (fun sub => modelCellParts fs m label sub fname) subs with
  | none => rw [ho] at h; simp at h
  | some cs =>
      rw [ho] at h
      simp only [Option.map_some', Option.some.injEq] at h
      subst h
      constructor
      · rw [countCell, countP_flatten_optMap ho _ 1
          (fun a _ b hb => (counts_modelCell hb).1)]
        omega
      · rw [countHdr, countP_flatten_optMap ho _ 0
          (fun a _ b hb => (counts_modelCell hb).2)]
        omega

lemma counts_head (subs : List String) (fname : String) :
    countHdr (headParts subs fname) = 1 + subs.length ∧
      countCell (headParts subs fname) = 0 := by
  unfold headParts
  constructor <;>
    simp [countHdr, countCell, List.countP_append, List.countP_cons,
      List.countP_map, Function.comp_def, List.countP_true] <;> omega

/-- Zipping the model tails with their label tails pairs each later model
with its own directory name. -/
lemma zip_labels (models : List FsPath) :
    (models.drop 1).zip ((models.map pathName).drop 1) =
      (models.drop 1).map (fun m => (m, pathName m)) := by
  rw [← List.map_drop]
  have := List.zip_map' id pathName (models.drop 1)
  simpa using this

lemma counts_laterRow {fs : FS} {subs : List String} {fname : String}
    {ml : FsPath × String} {r : List String}
    (h : laterRow fs subs fname ml = some r) :
    countCell r = 1 + subs.length ∧ countHdr r = 0 := by
  unfold laterRow at h
  cases hc : modelRowCells fs ml.1 ml.2 subs fname with
  | none => rw [hc] at h; simp at h
  | some cs =>
      rw [hc] at h
      simp only [Option.map_some', Option.some.injEq] at h
      subst h
      obtain ⟨h1, h2⟩ := counts_row hc
      unfold countCell at h1 ⊢
      unfold countHdr at h2 ⊢
      rw [List.countP_cons, List.countP_cons, h1, h2]
      constructor <;> simp <;> omega

/-- Grid shape of one section: one header div per column (the blank one
plus one per subfolder), and one cell row per model (a single placeholder
row when no model is given), each of full width. -/
lemma counts_section {fs : FS} {org_dir : FsPath} {models : List FsPath}
    {subs : List String} {fname : String} {ps : List String}
    (h : sectionParts fs org_dir models subs fname = some ps) :
    countHdr ps = 1 + subs.length ∧
      countCell ps = (1 + subs.length) * max 1 models.length := by
  unfold sectionParts at h
  cases horg : orgCellParts fs org_dir fname with
  | none => rw [horg] at h; simp at h
  | some orgc =>
      rw [horg] at h
      cases hrow : firstRow fs models subs fname with
      | none => rw [hrow] at h; simp at h
      | some r1 =>
          rw [hrow] at h
          cases hrows : optMap (laterRow fs subs fname)
              ((models.drop 1).zip ((models.map pathName).drop 1)) with
          | none => rw [hrows] at h; simp at h
          | some rows =>
              rw [hrows] at h
              simp only [Option.some.injEq] at h
              subst h
              obtain ⟨ho1, ho2⟩ := counts_orgCell horg
              obtain ⟨hhd, hhc⟩ := counts_head subs fname
              have hr1 : countCell r1 = subs.length ∧ countHdr r1 = 0 := by
                unfold firstRow at hrow
                cases models with
                | nil =>
                    simp only [Option.some.injEq] at hrow
                    subst hrow
                    constructor
                    · simp [countCell, List.countP_map, Function.comp_def,
                        List.countP_true, List.countP_replicate]
                    · simp [countHdr, List.countP_map, Function.comp_def,
                        List.countP_replicate]
                | cons m0 rest => exact counts_row hrow
              have hlen : ((models.drop 1).zip ((models.map pathName).drop 1)).length =
                  models.length - 1 := by
                simp [List.length_zip, List.length_drop, List.length_map]
              have hrowsC : rows.flatten.countP (fun s => strStarts cellMark s) =
                  (1 + subs.length) * (models.length - 1) := by
                rw [countP_flatten_optMap hrows _ (1 + subs.length)
                  (fun a _ b hb => by
                    have := (counts_laterRow hb).1
                    simpa [countCell] using this), hlen]
              have hrowsH : rows.flatten.countP (fun s => strStarts hdrMark s) = 0 := by
                rw [countP_flatten_optMap hrows _ 0
                  (fun a _ b hb => by
                    have := (counts_laterRow hb).2
                    simpa [countHdr] using this)]
                simp
              have htlH : List.countP (fun s => strStarts hdrMark s)
                  ["</div>", "</section>"] = 0 := by decide
              have htlC : List.countP (fun s => strStarts cellMark s)
                  ["</div>", "</section>"] = 0 := by decide
              constructor
              · unfold countHdr at hhd ho2 hr1 ⊢
                simp only [List.countP_append, hhd, ho2, hr1.2, hrowsH, htlH]
                omega
              · unfold countCell at hhc ho1 hr1 ⊢
                simp only [List.countP_append, hhc, ho1, hr1.1, hrowsC, htlC]
                cases models with
                | nil => simp
                | cons m0 rest =>
                    simp only [List.length_cons] at hrowsC ⊢
                    rw [Nat.max_eq_right (by omega : 1 ≤ rest.length + 1)]
                    simp only [Nat.add_sub_cancel, Nat.mul_succ] at hrowsC ⊢
                    omega

lemma optMap_mem {α β : Type _} {f : α → Option β} {l : List α} {r : List β}
    (h : optMap f l = some r) {b : β} (hb : b ∈ r) : ∃ a ∈ l, f a = some b := by
  induction l generalizing r with
  | nil =>
      unfold optMap at h
      simp only [Option.some.injEq] at h
      subst h
      simp at hb
  | cons a l ih =>
      unfold optMap at h
      cases hfa : f a with
      | none => rw [hfa] at h; simp at h
      | some b0 =>
          rw [hfa] at h
          cases ho : optMap f l with
          | none => rw [ho] at h; simp at h
          | some r' =>
              rw [ho] at h
              simp only [Option.some.injEq] at h
              subst h
              rcases List.mem_cons.mp hb with rfl | hby
              · exact ⟨a, by simp, hfa⟩
              · obtain ⟨x, hx, hfx⟩ := ih ho hby
                exact ⟨x, by simp [hx], hfx⟩

lemma optMap_infix {α β : Type _} {f : α → Option (List β)} {l : List α}
    {r : List (List β)} (h : optMap f l = some r) {a : α} (ha : a ∈ l) :
    ∃ b, f a = some b ∧ b.IsInfix r.flatten := by
  induction l generalizing r with
  | nil => simp at ha
  | cons x l ih =>
      unfold optMap at h
      cases hfx : f x with
      | none => rw [hfx] at h; simp at h
      | some b0 =>
          rw [hfx] at h
          cases ho : optMap f l with
          | none => rw [ho] at h; simp at h
          | some r' =>
              rw [ho] at h
              simp only [Option.some.injEq] at h
              subst h
              rcases List.mem_cons.mp ha with rfl | hal
              · exact ⟨b0, hfx, [], r'.flatten, by simp⟩
              · obtain ⟨b, hfb, hin⟩ := ih ho hal
                refine ⟨b, hfb, hin.trans ?_⟩
                exact ⟨b0, [], by simp⟩

/-- Decomposition of a successfully built section into its pieces. -/
lemma section_eq {fs : FS} {org_dir : FsPath} {models : List FsPath}
    {subs : List String} {fname : String} {ps : List String}
    (h : sectionParts fs org_dir models subs fname = some ps) :
    ∃ orgc r1 rows,
      orgCellParts fs org_dir fname = some orgc ∧
      firstRow fs models subs fname = some r1 ∧
      optMap (laterRow fs subs fname)
        ((models.drop 1).zip ((models.map pathName).drop 1)) = some rows ∧
      ps = headParts subs fname ++ orgc ++ r1 ++ rows.flatten ++
        ["</div>", "</section>"] := by
  unfold sectionParts at h
  cases horg : orgCellParts fs org_dir fname with
  | none => rw [horg] at h; simp at h
  | some orgc =>
      rw [horg] at h
      cases hrow : firstRow fs models subs fname with
      | none => rw [hrow] at h; simp at h
      | some r1 =>
          rw [hrow] at h
          cases hrows : optMap (laterRow fs subs fname)
              ((models.drop 1).zip ((models.map pathName).drop 1)) with
          | none => rw [hrows] at h; simp at h
          | some rows =>
              rw [hrows] at h
              simp only [Option.some.injEq] at h
              exact ⟨orgc, r1, rows, rfl, rfl, rfl, h.symm⟩

lemma modelCell_in_row {fs : FS} {m : FsPath} {label : String} {subs : List String}
    {fname : String} {r : List String}
    (h : modelRowCells fs m label subs fname = some r) {sub : String}
    (hs : sub ∈ subs) :
    ∃ cell, modelCellParts fs m label sub fname = some cell ∧ cell.IsInfix r := by
  unfold modelRowCells at h
  cases ho : optMap (fun sub => modelCellParts fs m label sub fname) subs with
  | none => rw [ho] at h; simp at h
  | some cs =>
      rw [ho] at h
      simp only [Option.map_some', Option.some.injEq] at h
      subst h
      exact optMap_infix ho hs

/-- Every chosen (model, subfolder) pair contributes its cell to the
section of every reference filename, with the model labelled by its
directory name. -/
lemma cell_in_section {fs : FS} {org_dir : FsPath} {models : List FsPath}
    {subs : List String} {fname : String} {m : FsPath} {sub : String}
    {ps : List String}
    (h : sectionParts fs org_dir models subs fname = some ps)
    (hm : m ∈ models) (hs : sub ∈ subs) :
    ∃ cell, modelCellParts fs m (pathName m) sub fname = some cell ∧
      cell.IsInfix ps := by
  obtain ⟨orgc, r1, rows, horg, hrow, hrows, rfl⟩ := section_eq h
  cases models with
  | nil => simp at hm
  | cons m0 rest =>
      rcases List.mem_cons.mp hm with rfl | hmr
      · unfold firstRow at hrow
        obtain ⟨cell, hc, hin⟩ := modelCell_in_row hrow hs
        refine ⟨cell, hc, hin.trans ?_⟩
        exact ⟨headParts subs fname ++ orgc,
          rows.flatten ++ ["</div>", "</section>"], by simp⟩
      · rw [zip_labels] at hrows
        have hmem : (m, pathName m) ∈ (List.drop 1 (m0 :: rest)).map
            (fun x => (x, pathName x)) := by
          simp only [List.drop_succ_cons, List.drop_zero]
          exact List.mem_map.mpr ⟨m, hmr, rfl⟩
        obtain ⟨row, hrowm, hin⟩ := optMap_infix hrows hmem
        unfold laterRow at hrowm
        cases hmc : modelRowCells fs m (pathName m) subs fname with
        | none => rw [hmc] at hrowm; simp at hrowm
        | some cs =>
            rw [hmc] at hrowm
            simp only [Option.map_some', Option.some.injEq] at hrowm
            obtain ⟨cell, hc, hcin⟩ := modelCell_in_row hmc hs
            refine ⟨cell, hc, ?_⟩
            have h1 : cs.IsInfix row := by
              rw [← hrowm]
              exact ⟨[placeholderLine], [], by simp⟩
            have h2 : row.IsInfix rows.flatten := hin
            have h3 : rows.flatten.IsInfix
                (headParts subs fname ++ orgc ++ r1 ++ rows.flatten ++
                  ["</div>", "</section>"]) := by
              exact ⟨headParts subs fname ++ orgc ++ r1,
                ["</div>", "</section>"], by simp⟩
            exact ((hcin.trans h1).trans h2).trans h3

/-- Content of a model cell when the image file is present: the label
line and the embedded image carrying the data URI of the file bytes. -/
lemma modelCell_present {fs : FS} {m : FsPath} {label sub fname : String}
    {bytes : List Nat} (hr : fs.read (m ++ [sub, fname]) = some bytes) :
    modelCellParts fs m label sub fname =
      some [cellOpenStr, labelLine label sub,
        imgLine ("data:" ++ guess_mime (m ++ [sub, fname]) ++ ";base64," ++
            String.mk (b64encodeList bytes))
          (html_escape label ++ "/" ++ html_escape sub ++ ":" ++ html_escape fname),
        cellCloseStr] := by
  have hf : fs.isFile (m ++ [sub, fname]) = true := by
    unfold FS.isFile
    rw [hr]
    rfl
  unfold modelCellParts
  rw [if_pos (by unfold FS.pathExists; rw [hf]; rfl)]
  unfold encode_data_uri
  rw [hr]
  rfl

/-- Content of a model cell when no file and no directory is at the
image path: the MISSING marker and no image line. -/
lemma modelCell_missing {fs : FS} {m : FsPath} {label sub fname : String}
    (hf : fs.isFile (m ++ [sub, fname]) = false)
    (hnd : fs.isDir (m ++ [sub, fname]) = false) :
    modelCellParts fs m label sub fname =
      some [cellOpenStr, labelLine label sub, missingLine, cellCloseStr] := by
  unfold modelCellParts
  rw [if_neg]
  unfold FS.pathExists
  rw [hf, hnd]
  simp

lemma hasImg_present (uri alt label sub : String) :
    hasImg [cellOpenStr, labelLine label sub, imgLine uri alt, cellCloseStr] = true := by
  simp [hasImg]

lemma hasImg_missing (label sub : String) :
    hasImg [cellOpenStr, labelLine label sub, missingLine, cellCloseStr] = false := by
  simp [hasImg]

/-- C1: each (model, subfolder) pair has its cell in every reference
section; the cell embeds the image as a data URI exactly when a regular
file is at `model/subfolder/filename`, and otherwise shows the MISSING
marker with no image line (assuming no directory shadows that path). -/
theorem claim_C1 (fs : FS) (org_dir : FsPath) (models : List FsPath)
    (subs : List String) (fname : String) (m : FsPath) (sub : String)
    (hm : m ∈ models) (hs : sub ∈ subs)
    (hnd : fs.isDir (m ++ [sub, fname]) = false) :
    (fs.isFile (m ++ [sub, fname]) = true →
      ∃ bytes cell, fs.read (m ++ [sub, fname]) = some bytes ∧
        modelCellParts fs m (pathName m) sub fname = some cell ∧
        cell = [cellOpenStr, labelLine (pathName m) sub,
          imgLine ("data:" ++ guess_mime (m ++ [sub, fname]) ++ ";base64," ++
              String.mk (b64encodeList bytes))
            (html_escape (pathName m) ++ "/" ++ html_escape sub ++ ":" ++
              html_escape fname),
          cellCloseStr] ∧
        hasImg cell = true) ∧
    (fs.isFile (m ++ [sub, fname]) = false →
      ∃ cell, modelCellParts fs m (pathName m) sub fname = some cell ∧
        cell = [cellOpenStr, labelLine (pathName m) sub, missingLine,
          cellCloseStr] ∧
        hasImg cell = false) ∧
    (∀ ps, sectionParts fs org_dir models subs fname = some ps →
      ∃ cell, modelCellParts fs m (pathName m) sub fname = some cell ∧
        cell.IsInfix ps) := by
  refine ⟨?_, ?_, fun ps hps => cell_in_section hps hm hs⟩
  · intro hf
    obtain ⟨bytes, hb⟩ := Option.isSome_iff_exists.mp hf
    exact ⟨bytes, _, hb, modelCell_present hb, rfl, hasImg_present _ _ _ _⟩
  · intro hf
    exact ⟨_, modelCell_missing hf hnd, rfl, hasImg_missing _ _⟩

theorem claim_C1_witness :
    ∃ cell, modelCellParts fsW ["mB"] (pathName ["mB"]) "s1" "a.png" = some cell ∧
      cell.IsInfix
        ((sectionParts fsW ["org"] [["mA"], ["mB"]] ["s1", "s2"] "a.png").getD []) :=
  (claim_C1 fsW ["org"] [["mA"], ["mB"]] ["s1", "s2"] "a.png" ["mB"] "s1"
      (by decide) (by decide) (by decide)).2.2
    ((sectionParts fsW ["org"] [["mA"], ["mB"]] ["s1", "s2"] "a.png").getD [])
    (by rfl)

/-- C5: in every section of the document the header row has one div per
column, 1 (original) + one per subfolder, and the cell divs fill one row
of full width per model (a single placeholder row when no model is
given). -/
theorem claim_C5 (fs : FS) (org_dir : FsPath) (models : List FsPath)
    (subs : List String) :
    (∀ fname ps, sectionParts fs org_dir models subs fname = some ps →
      countHdr ps = 1 + subs.length ∧
        countCell ps = (1 + subs.length) * max 1 models.length) ∧
    (∀ secs, optMap (sectionParts fs org_dir models subs)
        (list_org_files fs org_dir) = some secs →
      ∀ sec ∈ secs, countHdr sec = 1 + subs.length ∧
        countCell sec = (1 + subs.length) * max 1 models.length) := by
  refine ⟨fun fname ps h => counts_section h, fun secs h sec hsec => ?_⟩
  obtain ⟨fname, _, hf⟩ := optMap_mem h hsec
  exact counts_section hf

theorem claim_C5_witness :
    countHdr ((sectionParts fsW ["org"] [["mA"], ["mB"]] ["s1", "s2"]
        "a.png").getD []) = 1 + 2 ∧
    countCell ((sectionParts fsW ["org"] [["mA"], ["mB"]] ["s1", "s2"]
        "a.png").getD []) = (1 + 2) * max 1 2 :=
  (claim_C5 fsW ["org"] [["mA"], ["mB"]] ["s1", "s2"]).1 "a.png"
    ((sectionParts fsW ["org"] [["mA"], ["mB"]] ["s1", "s2"] "a.png").getD [])
    (by rfl)

/-- C4: with 2 models and 3 subfolders a section grid holds 4 x 3 = 12
divs in total, 4 header divs and 8 cell divs (the original image shares
the first cell row with the first model), and the second model row
starts with the empty placeholder cell under the original column. -/
theorem claim_C4 (fs : FS) (org_dir : FsPath) (mA mB : FsPath)
    (subs : List String) (hsub : subs.length = 3) (fname : String)
    (ps : List String)
    (h : sectionParts fs org_dir [mA, mB] subs fname = some ps) :
    countHdr ps + countCell ps = 12 ∧
    countHdr ps = 4 ∧ countCell ps = 8 ∧
    (∃ cs, modelRowCells fs mB (pathName mB) subs fname = some cs ∧
      (placeholderLine :: cs).IsInfix ps) ∧
    placeholderLine = "<div class=\x27cell placeholder\x27></div>" ∧
    strStarts imgMark placeholderLine = false := by
  obtain ⟨hh, hc⟩ := counts_section h
  rw [hsub] at hh hc
  simp only [List.length_cons, List.length_nil] at hc
  have hh4 : countHdr ps = 4 := by omega
  have hc8 : countCell ps = 8 := by
    rw [hc]
    rfl
  refine ⟨by omega, hh4, hc8, ?_, rfl, by decide⟩
  obtain ⟨orgc, r1, rows, horg, hrow, hrows, hps⟩ := section_eq h
  rw [show (List.drop 1 [mA, mB]).zip (List.drop 1 (List.map pathName [mA, mB])) =
    [(mB, pathName mB)] from rfl] at hrows
  obtain ⟨row, hlr, hinf⟩ := optMap_infix hrows (by simp : (mB, pathName mB) ∈ _)
  unfold laterRow at hlr
  cases hmc : modelRowCells fs mB (pathName mB) subs fname with
  | none => rw [hmc] at hlr; simp at hlr
  | some cs =>
      rw [hmc] at hlr
      simp only [Option.map_some', Option.some.injEq] at hlr
      refine ⟨cs, rfl, ?_⟩
      rw [← hlr] at hinf
      refine hinf.trans ?_
      rw [hps]
      exact ⟨headParts subs fname ++ orgc ++ r1, ["</div>", "</section>"], by simp⟩

theorem claim_C4_witness :
    countHdr ((sectionParts fsW ["org"] [["mA"], ["mB"]] ["s1", "s2", "s3"]
        "a.png").getD []) +
      countCell ((sectionParts fsW ["org"] [["mA"], ["mB"]] ["s1", "s2", "s3"]
        "a.png").getD []) = 12 :=
  (claim_C4 fsW ["org"] ["mA"] ["mB"] ["s1", "s2", "s3"] (by rfl) "a.png"
    ((sectionParts fsW ["org"] [["mA"], ["mB"]] ["s1", "s2", "s3"] "a.png").getD [])
    (by rfl)).1

/-- Content of the original-image cell when the file is present. -/
lemma orgCell_present {fs : FS} {org_dir : FsPath} {fname : String}
    {bytes : List Nat} (hr : fs.read (org_dir ++ [fname]) = some bytes) :
    orgCellParts fs org_dir fname =
      some [cellOpenStr, orgLabelLine,
        imgLine ("data:" ++ guess_mime (org_dir ++ [fname]) ++ ";base64," ++
            String.mk (b64encodeList bytes))
          ("org:" ++ html_escape fname),
        cellCloseStr] := by
  have hf : fs.isFile (org_dir ++ [fname]) = true := by
    unfold FS.isFile
    rw [hr]
    rfl
  unfold orgCellParts
  rw [if_pos (by unfold FS.pathExists; rw [hf]; rfl)]
  unfold encode_data_uri
  rw [hr]
  rfl

/-- Content of the original-image cell when nothing is at the path. -/
lemma orgCell_missing {fs : FS} {org_dir : FsPath} {fname : String}
    (hne : fs.pathExists (org_dir ++ [fname]) = false) :
    orgCellParts fs org_dir fname = some [orgMissingLine] := by
  unfold orgCellParts
  rw [if_neg]
  simp [hne]

/-- C6: with zero models each reference filename still renders one row:
its original-image cell followed by one "No model" placeholder per
subfolder. -/
theorem claim_C6 (fs : FS) (org_dir : FsPath) (subs : List String) (fname : String)
    (hf : fname ∈ list_org_files fs org_dir) :
    ∃ orgc, orgCellParts fs org_dir fname = some orgc ∧
      sectionParts fs org_dir [] subs fname =
        some (headParts subs fname ++ orgc ++
          subs.map (fun _ => noModelLine) ++ ["</div>", "</section>"]) ∧
      subs.map (fun _ => noModelLine) =
        List.replicate subs.length noModelLine ∧
      countCell (subs.map (fun _ => noModelLine)) = subs.length := by
  have hfile := (mem_list_org_files_iff.mp hf).1
  obtain ⟨bytes, hb⟩ := Option.isSome_iff_exists.mp hfile
  refine ⟨_, orgCell_present hb, ?_, ?_, ?_⟩
  · unfold sectionParts
    simp only [orgCell_present hb]
    unfold firstRow optMap
    simp
  · simp [List.map_const']
  · simp [countCell, List.countP_map, Function.comp_def, List.countP_true,
      List.countP_replicate]

theorem claim_C6_witness :
    ∃ orgc, orgCellParts fsW ["org"] "a.png" = some orgc ∧
      sectionParts fsW ["org"] [] ["s1", "s2"] "a.png" =
        some (headParts ["s1", "s2"] "a.png" ++ orgc ++
          (["s1", "s2"] : List String).map (fun _ => noModelLine) ++
          ["</div>", "</section>"]) ∧
      (["s1", "s2"] : List String).map (fun _ => noModelLine) =
        List.replicate (["s1", "s2"] : List String).length noModelLine ∧
      countCell ((["s1", "s2"] : List String).map (fun _ => noModelLine)) =
        (["s1", "s2"] : List String).length :=
  claim_C6 fsW ["org"] ["s1", "s2"] "a.png" (by decide)

/-- C7: when the original file itself is absent the org cell shows the
"Original MISSING" marker, and every model cell of that filename still
renders from its own existence: an embedded image when its file exists,
the MISSING marker and no image line otherwise. -/
theorem claim_C7 (fs : FS) (org_dir : FsPath) (models : List FsPath)
    (subs : List String) (fname : String)
    (hmiss : fs.pathExists (org_dir ++ [fname]) = false) :
    orgCellParts fs org_dir fname = some [orgMissingLine] ∧
    (∀ ps, sectionParts fs org_dir models subs fname = some ps →
      (∃ rest, ps = headParts subs fname ++ [orgMissingLine] ++ rest) ∧
      (∀ m ∈ models, ∀ sub ∈ subs,
        fs.isDir (m ++ [sub, fname]) = false →
          ∃ cell, modelCellParts fs m (pathName m) sub fname = some cell ∧
            cell.IsInfix ps ∧
            (fs.isFile (m ++ [sub, fname]) = true → hasImg cell = true) ∧
            (fs.isFile (m ++ [sub, fname]) = false →
              cell = [cellOpenStr, labelLine (pathName m) sub, missingLine,
                cellCloseStr] ∧ hasImg cell = false))) := by
  refine ⟨orgCell_missing hmiss, fun ps hps => ⟨?_, ?_⟩⟩
  · obtain ⟨orgc, r1, rows, horg, hrow, hrows, hpseq⟩ := section_eq hps
    have horgc : orgc = [orgMissingLine] := by
      have := orgCell_missing hmiss
      rw [horg] at this
      simpa using this
    subst horgc
    exact ⟨r1 ++ rows.flatten ++ ["</div>", "</section>"], by simp [hpseq]⟩
  · intro m hm sub hs hnd
    obtain ⟨cell, hc, hin⟩ := cell_in_section hps hm hs
    refine ⟨cell, hc, hin, ?_, ?_⟩
    · intro hfl
      obtain ⟨bytes, hb⟩ := Option.isSome_iff_exists.mp hfl
      have hpr := @modelCell_present fs m (pathName m) sub fname bytes hb
      rw [hc] at hpr
      have hcell : cell = [cellOpenStr, labelLine (pathName m) sub,
          imgLine ("data:" ++ guess_mime (m ++ [sub, fname]) ++ ";base64," ++
              String.mk (b64encodeList bytes))
            (html_escape (pathName m) ++ "/" ++ html_escape sub ++ ":" ++
              html_escape fname),
          cellCloseStr] := by simpa using hpr
      rw [hcell]
      exact hasImg_present _ _ _ _
    · intro hfl
      have hms := @modelCell_missing fs m (pathName m) sub fname hfl hnd
      rw [hc] at hms
      have hcell : cell = [cellOpenStr, labelLine (pathName m) sub, missingLine,
          cellCloseStr] := by simpa using hms
      rw [hcell]
      exact ⟨rfl, hasImg_missing _ _⟩

theorem claim_C7_witness :
    orgCellParts fsW ["org"] "zz.png" = some [orgMissingLine] ∧
    (∃ rest, (sectionParts fsW ["org"] [["mA"]] ["s1"] "zz.png").getD [] =
      headParts ["s1"] "zz.png" ++ [orgMissingLine] ++ rest) :=
  ⟨(claim_C7 fsW ["org"] [["mA"]] ["s1"] "zz.png" (by decide)).1,
    ((claim_C7 fsW ["org"] [["mA"]] ["s1"] "zz.png" (by decide)).2
      ((sectionParts fsW ["org"] [["mA"]] ["s1"] "zz.png").getD []) (by rfl)).1⟩

/-- C8: an absent or non-directory original or model directory makes the
run exit with an error before anything is processed, and `MainResult.err`
carries no write at all; with valid directories a successful build yields
exactly one written output file and a zero exit. -/
theorem claim_C8 (fs : FS) (a : Args) :
    ((fs.isDir a.org = false ∨ ∃ m ∈ a.models, fs.isDir m = false) →
      ∃ msg, main_run fs a = MainResult.err msg) ∧
    (fs.isDir a.org = true → (∀ m ∈ a.models, fs.isDir m = true) →
      ∀ s, build_html fs a.org a.models (effFolders a) a.title a.max_height =
          some s →
        main_run fs a = MainResult.ok a.out s) := by
  constructor
  · intro hbad
    unfold main_run
    cases horg : fs.isDir a.org with
    | false => exact ⟨_, by rw [if_pos rfl]⟩
    | true =>
        rw [if_neg (by simp)]
        rcases hbad with hbad | ⟨m, hm, hmd⟩
        · rw [horg] at hbad
          cases hbad
        · have hfind : (a.models.find? (fun m => ! fs.isDir m)).isSome := by
            rw [List.find?_isSome]
            exact ⟨m, hm, by rw [hmd]; rfl⟩
          cases hf : a.models.find? (fun m => ! fs.isDir m) with
          | none => rw [hf] at hfind; simp at hfind
          | some mbad => exact ⟨_, rfl⟩
  · intro horg hmods s hbuild
    unfold main_run
    rw [if_neg (by simp [horg])]
    have hfind : a.models.find? (fun m => ! fs.isDir m) = none := by
      rw [List.find?_eq_none]
      intro m hm
      simp [hmods m hm]
    rw [hfind, hbuild]

theorem claim_C8_witness :
    (∃ msg, main_run fsW ⟨["nope"], [["mA"]], none, ["out.html"], "T", 420⟩ =
      MainResult.err msg) ∧
    main_run fsW ⟨["org"], [["mA"]], some ["s1"], ["out.html"], "T", 420⟩ =
      MainResult.ok ["out.html"]
        ((build_html fsW ["org"] [["mA"]]
          (effFolders ⟨["org"], [["mA"]], some ["s1"], ["out.html"], "T", 420⟩)
          "T" 420).getD "") :=
  ⟨(claim_C8 fsW ⟨["nope"], [["mA"]], none, ["out.html"], "T", 420⟩).1
      (Or.inl (by decide)),
    (claim_C8 fsW ⟨["org"], [["mA"]], some ["s1"], ["out.html"], "T", 420⟩).2
      (by decide) (by decide) _ (by rfl)⟩

lemma read_perm {fs1 fs2 : FS} (hp : List.Perm fs1.files fs2.files)
    (hk : (fs1.files.map Prod.fst).Nodup) (p : FsPath) :
    fs1.read p = fs2.read p := by
  have hk2 : (fs2.files.map Prod.fst).Nodup := ((hp.map Prod.fst).nodup_iff).mp hk
  cases h1 : fs1.read p with
  | none =>
      cases h2 : fs2.read p with
      | none => rfl
      | some b =>
          have hmem := (read_eq_some_iff hk2).mp h2
          have hcontra := (read_eq_some_iff hk).mpr (hp.symm.subset hmem)
          rw [h1] at hcontra
          simp at hcontra
  | some b =>
      have hmem := (read_eq_some_iff hk).mp h1
      have h2 := (read_eq_some_iff hk2).mpr (hp.subset hmem)
      rw [h2]

lemma isFile_perm {fs1 fs2 : FS} (hp : List.Perm fs1.files fs2.files)
    (hk : (fs1.files.map Prod.fst).Nodup) (p : FsPath) :
    fs1.isFile p = fs2.isFile p := by
  unfold FS.isFile
  rw [read_perm hp hk]

lemma isDir_perm {fs1 fs2 : FS} (hd : List.Perm fs1.dirs fs2.dirs) (p : FsPath) :
    fs1.isDir p = fs2.isDir p := by
  unfold FS.isDir
  cases h1 : fs1.dirs.contains p with
  | false =>
      cases h2 : fs2.dirs.contains p with
      | false => rfl
      | true =>
          have := hd.symm.subset (List.elem_iff.mp h2)
          rw [← List.elem_iff,
            show List.elem p fs1.dirs = fs1.dirs.contains p from rfl, h1] at this
          cases this
  | true =>
      have := hd.subset (List.elem_iff.mp h1)
      rw [← List.elem_iff,
        show List.elem p fs2.dirs = fs2.dirs.contains p from rfl] at this
      rw [this]

lemma pathExists_perm {fs1 fs2 : FS} (hp : List.Perm fs1.files fs2.files)
    (hd : List.Perm fs1.dirs fs2.dirs) (hk : (fs1.files.map Prod.fst).Nodup)
    (p : FsPath) : fs1.pathExists p = fs2.pathExists p := by
  unfold FS.pathExists
  rw [isFile_perm hp hk, isDir_perm hd]

lemma encode_perm {fs1 fs2 : FS} (hp : List.Perm fs1.files fs2.files)
    (hk : (fs1.files.map Prod.fst).Nodup) (p : FsPath) :
    encode_data_uri fs1 p = encode_data_uri fs2 p := by
  unfold encode_data_uri
  rw [read_perm hp hk]

lemma list_org_files_perm_eq {fs1 fs2 : FS} (hp : List.Perm fs1.files fs2.files)
    (hd : List.Perm fs1.dirs fs2.dirs) (hk : (fs1.files.map Prod.fst).Nodup)
    (org_dir : FsPath) :
    list_org_files fs1 org_dir = list_org_files fs2 org_dir := by
  have hfe : ∀ p, orgFilter fs1 org_dir p = orgFilter fs2 org_dir p := by
    intro p
    unfold orgFilter
    simp only [isFile_perm hp hk]
  have hperm : List.Perm
      ((fs1.files.map Prod.fst ++ fs1.dirs).filterMap (orgFilter fs2 org_dir))
      ((fs2.files.map Prod.fst ++ fs2.dirs).filterMap (orgFilter fs2 org_dir)) :=
    ((hp.map Prod.fst).append hd).filterMap _
  have h1 : (fs1.files.map Prod.fst ++ fs1.dirs).filterMap (orgFilter fs1 org_dir) =
      (fs1.files.map Prod.fst ++ fs1.dirs).filterMap (orgFilter fs2 org_dir) :=
    List.filterMap_congr (fun p _ => hfe p)
  unfold list_org_files
  rw [h1]
  refine List.eq_of_perm_of_sorted ?_ (List.sorted_insertionSort _ _)
    (List.sorted_insertionSort _ _)
  exact (List.perm_insertionSort _ _).trans
    (hperm.trans (List.perm_insertionSort _ _).symm)

lemma optMap_congr {α β : Type _} {f g : α → Option β} (h : ∀ a, f a = g a)
    (l : List α) : optMap f l = optMap g l := by
  induction l with
  | nil => rfl
  | cons a l ih =>
      unfold optMap
      rw [h a, ih]

lemma modelCell_perm {fs1 fs2 : FS} (hp : List.Perm fs1.files fs2.files)
    (hd : List.Perm fs1.dirs fs2.dirs) (hk : (fs1.files.map Prod.fst).Nodup)
    (m : FsPath) (label sub fname : String) :
    modelCellParts fs1 m label sub fname = modelCellParts fs2 m label sub fname := by
  unfold modelCellParts
  rw [pathExists_perm hp hd hk, encode_perm hp hk]

lemma modelRow_perm {fs1 fs2 : FS} (hp : List.Perm fs1.files fs2.files)
    (hd : List.Perm fs1.dirs fs2.dirs) (hk : (fs1.files.map Prod.fst).Nodup)
    (m : FsPath) (label : String) (subs : List String) (fname : String) :
    modelRowCells fs1 m label subs fname = modelRowCells fs2 m label subs fname := by
  unfold modelRowCells
  rw [optMap_congr (fun sub => modelCell_perm hp hd hk m label sub fname)]

lemma orgCell_perm {fs1 fs2 : FS} (hp : List.Perm fs1.files fs2.files)
    (hd : List.Perm fs1.dirs fs2.dirs) (hk : (fs1.files.map Prod.fst).Nodup)
    (org_dir : FsPath) (fname : String) :
    orgCellParts fs1 org_dir fname = orgCellParts fs2 org_dir fname := by
  unfold orgCellParts
  rw [pathExists_perm hp hd hk, encode_perm hp hk]

lemma section_perm {fs1 fs2 : FS} (hp : List.Perm fs1.files fs2.files)
    (hd : List.Perm fs1.dirs fs2.dirs) (hk : (fs1.files.map Prod.fst).Nodup)
    (org_dir : FsPath) (models : List FsPath) (subs : List String)
    (fname : String) :
    sectionParts fs1 org_dir models subs fname =
      sectionParts fs2 org_dir models subs fname := by
  have h1 : orgCellParts fs1 org_dir fname = orgCellParts fs2 org_dir fname :=
    orgCell_perm hp hd hk org_dir fname
  have h2 : firstRow fs1 models subs fname = firstRow fs2 models subs fname := by
    unfold firstRow
    cases models with
    | nil => rfl
    | cons m0 rest => exact modelRow_perm hp hd hk m0 (pathName m0) subs fname
  have h3 : optMap (laterRow fs1 subs fname)
      ((models.drop 1).zip ((models.map pathName).drop 1)) =
      optMap (laterRow fs2 subs fname)
        ((models.drop 1).zip ((models.map pathName).drop 1)) :=
    optMap_congr (fun ml => by
      unfold laterRow
      rw [modelRow_perm hp hd hk ml.1 ml.2 subs fname]) _
  unfold sectionParts
  rw [h1, h2, h3]

/-- C9: the built document is a function of the snapshot contents alone:
permuting the enumeration order of the directory entries (with directory
listings free of duplicates) leaves the output byte-for-byte identical. -/
theorem claim_C9 (fs1 fs2 : FS) (hp : List.Perm fs1.files fs2.files)
    (hd : List.Perm fs1.dirs fs2.dirs) (hk : (fs1.files.map Prod.fst).Nodup)
    (org_dir : FsPath) (models : List FsPath) (subs : List String)
    (title : String) (max_height : Nat) :
    build_html fs1 org_dir models subs title max_height =
      build_html fs2 org_dir models subs title max_height := by
  unfold build_html build_parts
  rw [list_org_files_perm_eq hp hd hk]
  rw [optMap_congr (fun fname => section_perm hp hd hk org_dir models subs fname)]

/-- The witness snapshot with its listings enumerated in another order. -/
def fsW2 : FS :=
  ⟨[(["mB", "s1", "a.png"], [0, 0]), (["org", "b.txt"], [4]),
    (["org", "a.png"], [1, 2, 3]), (["mA", "s1", "a.png"], [255])],
   [["mB", "s1"], ["org"], ["mA", "s2"], ["mA"], ["mB"], ["mA", "s1"], ["mB", "s2"]]⟩

theorem claim_C9_witness :
    List.Perm fsW.files fsW2.files ∧ List.Perm fsW.dirs fsW2.dirs ∧
    build_html fsW ["org"] [["mA"], ["mB"]] ["s1"] "T" 420 =
      build_html fsW2 ["org"] [["mA"], ["mB"]] ["s1"] "T" 420 :=
  ⟨by decide, by decide,
    claim_C9 fsW fsW2 (by decide) (by decide) (by decide) ["org"]
      [["mA"], ["mB"]] ["s1"] "T" 420⟩

/-- A string free of the four markup-significant characters: it can open
no tag and break out of no single- or double-quoted attribute. -/
def NoMarkup (s : String) : Prop :=
  ∀ c ∈ s.data, c ≠ '<' ∧ c ≠ '>' ∧ c ≠ '\x27' ∧ c ≠ '"'

instance (s : String) : Decidable (NoMarkup s) := by
  unfold NoMarkup
  infer_instance

lemma noMarkup_append {a b : String} (ha : NoMarkup a) (hb : NoMarkup b) :
    NoMarkup (a ++ b) := by
  intro c hc
  rw [String.data_append] at hc
  rcases List.mem_append.mp hc with h | h
  · exact ha c h
  · exact hb c h

/-- `html.escape` removes every markup-significant character. -/
lemma escape_noMarkup (s : String) : NoMarkup (html_escape s) := by
  intro c hc
  have hc2 : c ∈ s.data.flatMap escapeChar := hc
  obtain ⟨x, _, hcx⟩ := List.mem_flatMap.mp hc2
  unfold escapeChar at hcx
  split at hcx
  · fin_cases hcx <;> decide
  · split at hcx
    · fin_cases hcx <;> decide
    · split at hcx
      · fin_cases hcx <;> decide
      · split at hcx
        · fin_cases hcx <;> decide
        · split at hcx
          · fin_cases hcx <;> decide
          · next h1 h2 h3 h4 h5 =>
              obtain rfl : c = x := by simpa using hcx
              exact ⟨h2, h3, h5, h4⟩

lemma b64char_mem (n : Nat) : b64char n ∈ b64chars := by
  unfold b64char
  by_cases h : n < b64chars.length
  · rw [List.getD_eq_getElem b64chars 'A' h]
    exact List.getElem_mem h
  · rw [List.getD_eq_default b64chars 'A' (by omega)]
    decide

lemma b64_chars_shape : ∀ bs : List Nat, ∀ c ∈ b64encodeList bs,
    c ∈ b64chars ∨ c = '='
  | [], _, hc => by simp [b64encodeList] at hc
  | [b1], c, hc => by
      simp only [b64encodeList, List.mem_cons, List.not_mem_nil, or_false] at hc
      rcases hc with rfl | rfl | rfl | rfl
      · exact Or.inl (b64char_mem _)
      · exact Or.inl (b64char_mem _)
      · exact Or.inr rfl
      · exact Or.inr rfl
  | [b1, b2], c, hc => by
      simp only [b64encodeList, List.mem_cons, List.not_mem_nil, or_false] at hc
      rcases hc with rfl | rfl | rfl | rfl
      · exact Or.inl (b64char_mem _)
      · exact Or.inl (b64char_mem _)
      · exact Or.inl (b64char_mem _)
      · exact Or.inr rfl
  | b1 :: b2 :: b3 :: rest, c, hc => by
      simp only [b64encodeList, List.mem_cons] at hc
      rcases hc with rfl | rfl | rfl | rfl | hc
      · exact Or.inl (b64char_mem _)
      · exact Or.inl (b64char_mem _)
      · exact Or.inl (b64char_mem _)
      · exact Or.inl (b64char_mem _)
      · exact b64_chars_shape rest c hc

lemma b64_noMarkup (bs : List Nat) : NoMarkup (String.mk (b64encodeList bs)) := by
  intro c hc
  have hc2 : c ∈ b64encodeList bs := hc
  rcases b64_chars_shape bs c hc2 with h | rfl
  · revert h
    have : ∀ d ∈ b64chars, d ≠ '<' ∧ d ≠ '>' ∧ d ≠ '\x27' ∧ d ≠ '"' := by decide
    exact this c
  · decide

lemma guess_mime_cases (p : FsPath) :
    guess_mime p ∈ ["image/png", "image/jpeg", "image/gif", "image/bmp",
      "image/webp", "application/octet-stream"] := by
  unfold guess_mime mimetypes_guess_type
  split
  · rename_i mime heq
    split at heq <;> simp_all
  · split <;> simp

/-- A data URI is free of markup-significant characters. -/
lemma dataUri_noMarkup (p : FsPath) (bytes : List Nat) :
    NoMarkup ("data:" ++ guess_mime p ++ ";base64," ++
      String.mk (b64encodeList bytes)) := by
  refine noMarkup_append (noMarkup_append (noMarkup_append ?_ ?_) ?_)
    (b64_noMarkup bytes)
  · decide
  · have h := guess_mime_cases p
    simp only [List.mem_cons, List.not_mem_nil, or_false] at h
    rcases h with h | h | h | h | h | h <;> (rw [h]; decide)
  · decide

/-- The fixed template lines of the document: every line the builder can
emit that contains no interpolated value at all. -/
def litParts : List String :=
  ["<!DOCTYPE html>",
    "<html lang=\x27ja\x27><head><meta charset=\x27utf-8\x27>",
    "<meta name=\x27viewport\x27 content=\x27width=device-width,initial-scale=1\x27>",
    "<style>", "</style>",
    "</head><body><div class=\x27page\x27>",
    "<div class=\x27meta\x27>",
    "</div>",
    "<section class=\x27block\x27>",
    "<div class=\x27block_head\x27>",
    "<div class=\x27chips\x27>org + per-folder model comparison</div>",
    "<div class=\x27grid\x27>",
    "<div class=\x27hdr\x27></div>",
    cellOpenStr, orgLabelLine, cellCloseStr, missingLine, orgMissingLine,
    noModelLine, placeholderLine,
    "</section>",
    "</div></body></html>"]

/-- The template pairs that wrap exactly one escaped value. -/
def wrapPairs : List (String × String) :=
  [("<title>", "</title>"), ("<h1>", "</h1>"),
    ("Org: <code>", "</code> | "),
    ("<div class=\x27fname\x27>", "</div>"),
    ("<div class=\x27hdr\x27>", "</div>")]

/-- Shape of a document line: a fixed template line, the style sheet, or
a template whose holes are filled only with `html_escape` output or with
a data URI.  Free text can reach the document through no other route. -/
inductive PartForm : String → Prop
  | lit (s : String) (h : s ∈ litParts) : PartForm s
  | css (n mh : Nat) : PartForm (cssFor n mh)
  | wrapped (pre suf t : String) (h : (pre, suf) ∈ wrapPairs) :
      PartForm (pre ++ html_escape t ++ suf)
  | labelL (label sub : String) : PartForm (labelLine label sub)
  | modelsLine (ms : List FsPath) :
      PartForm ("Models: " ++ String.intercalate ", "
        (ms.map (fun m => "<code>" ++ html_escape (pathStr m) ++ "</code>")) ++ " | ")
  | foldersLine (ss : List String) :
      PartForm ("Folders: " ++ String.intercalate ", "
        (ss.map (fun s => "<code>" ++ html_escape s ++ "</code>")))
  | imgOrg (p : FsPath) (bytes : List Nat) (f : String) :
      PartForm (imgLine ("data:" ++ guess_mime p ++ ";base64," ++
          String.mk (b64encodeList bytes)) ("org:" ++ html_escape f))
  | imgModel (p : FsPath) (bytes : List Nat) (label sub f : String) :
      PartForm (imgLine ("data:" ++ guess_mime p ++ ";base64," ++
          String.mk (b64encodeList bytes))
        (html_escape label ++ "/" ++ html_escape sub ++ ":" ++ html_escape f))

lemma encode_eq_some {fs : FS} {p : FsPath} {uri : String}
    (h : encode_data_uri fs p = some uri) :
    ∃ bytes, fs.read p = some bytes ∧
      uri = "data:" ++ guess_mime p ++ ";base64," ++
        String.mk (b64encodeList bytes) := by
  unfold encode_data_uri at h
  cases hr : fs.read p with
  | none => rw [hr] at h; simp at h
  | some b =>
      rw [hr] at h
      simp only [Option.map_some', Option.some.injEq] at h
      exact ⟨b, rfl, h.symm⟩

lemma partForm_modelCell {fs : FS} {m : FsPath} {label sub fname : String}
    {cell : List String} (h : modelCellParts fs m label sub fname = some cell) :
    ∀ s ∈ cell, PartForm s := by
  intro s hs
  unfold modelCellParts at h
  split at h
  · cases he : encode_data_uri fs (m ++ [sub, fname]) with
    | none => rw [he] at h; simp at h
    | some uri =>
        rw [he] at h
        simp only [Option.map_some', Option.some.injEq] at h
        subst h
        obtain ⟨bytes, _, rfl⟩ := encode_eq_some he
        simp only [List.mem_cons, List.not_mem_nil, or_false] at hs
        rcases hs with rfl | rfl | rfl | rfl
        · exact PartForm.lit _ (by simp [litParts])
        · exact PartForm.labelL _ _
        · exact PartForm.imgModel _ _ _ _ _
        · exact PartForm.lit _ (by simp [litParts])
  · simp only [Option.some.injEq] at h
    subst h
    simp only [List.mem_cons, List.not_mem_nil, or_false] at hs
    rcases hs with rfl | rfl | rfl | rfl
    · exact PartForm.lit _ (by simp [litParts])
    · exact PartForm.labelL _ _
    · exact PartForm.lit _ (by simp [litParts])
    · exact PartForm.lit _ (by simp [litParts])

lemma partForm_orgCell {fs : FS} {org_dir : FsPath} {fname : String}
    {cell : List String} (h : orgCellParts fs org_dir fname = some cell) :
    ∀ s ∈ cell, PartForm s := by
  intro s hs
  unfold orgCellParts at h
  split at h
  · cases he : encode_data_uri fs (org_dir ++ [fname]) with
    | none => rw [he] at h; simp at h
    | some uri =>
        rw [he] at h
        simp only [Option.map_some', Option.some.injEq] at h
        subst h
        obtain ⟨bytes, _, rfl⟩ := encode_eq_some he
        simp only [List.mem_cons, List.not_mem_nil, or_false] at hs
        rcases hs with rfl | rfl | rfl | rfl
        · exact PartForm.lit _ (by simp [litParts])
        · exact PartForm.lit _ (by simp [litParts])
        · exact PartForm.imgOrg _ _ _
        · exact PartForm.lit _ (by simp [litParts])
  · simp only [Option.some.injEq] at h
    subst h
    simp only [List.mem_cons, List.not_mem_nil, or_false] at hs
    subst hs
    exact PartForm.lit _ (by simp [litParts])

lemma partForm_row {fs : FS} {m : FsPath} {label : String} {subs : List String}
    {fname : String} {r : List String}
    (h : modelRowCells fs m label subs fname = some r) :
    ∀ s ∈ r, PartForm s := by
  intro s hs
  unfold modelRowCells at h
  cases ho : optMap (fun sub => modelCellParts fs m label sub fname) subs with
  | none => rw [ho] at h; simp at h
  | some cs =>
      rw [ho] at h
      simp only [Option.map_some', Option.some.injEq] at h
      subst h
      obtain ⟨cell, hcell, hscell⟩ := List.mem_flatten.mp hs
      obtain ⟨sub, _, hc⟩ := optMap_mem ho hcell
      exact partForm_modelCell hc s hscell

lemma partForm_section {fs : FS} {org_dir : FsPath} {models : List FsPath}
    {subs : List String} {fname : String} {sec : List String}
    (h : sectionParts fs org_dir models subs fname = some sec) :
    ∀ s ∈ sec, PartForm s := by
  intro s hs
  obtain ⟨orgc, r1, rows, horg, hrow, hrows, rfl⟩ := section_eq h
  simp only [List.append_assoc, List.mem_append] at hs
  rcases hs with hs | hs | hs | hs | hs
  · unfold headParts at hs
    simp only [List.mem_append, List.mem_cons, List.not_mem_nil, or_false] at hs
    rcases hs with ((rfl | rfl | rfl | rfl | rfl | rfl | rfl) | hs)
    · exact PartForm.lit _ (by simp [litParts])
    · exact PartForm.lit _ (by simp [litParts])
    · exact PartForm.wrapped "<div class=\x27fname\x27>" "</div>" fname
        (by simp [wrapPairs])
    · exact PartForm.lit _ (by simp [litParts])
    · exact PartForm.lit _ (by simp [litParts])
    · exact PartForm.lit _ (by simp [litParts])
    · exact PartForm.lit _ (by simp [litParts])
    · obtain ⟨sub, _, rfl⟩ := List.mem_map.mp hs
      exact PartForm.wrapped "<div class=\x27hdr\x27>" "</div>" sub
        (by simp [wrapPairs])
  · exact partForm_orgCell horg s hs
  · unfold firstRow at hrow
    cases models with
    | nil =>
        simp only [Option.some.injEq] at hrow
        subst hrow
        obtain ⟨_, _, rfl⟩ := List.mem_map.mp hs
        exact PartForm.lit _ (by simp [litParts])
    | cons m0 rest => exact partForm_row hrow s hs
  · obtain ⟨row, hrmem, hsrow⟩ := List.mem_flatten.mp hs
    obtain ⟨ml, _, hlr⟩ := optMap_mem hrows hrmem
    unfold laterRow at hlr
    cases hmc : modelRowCells fs ml.1 ml.2 subs fname with
    | none => rw [hmc] at hlr; simp at hlr
    | some cs =>
        rw [hmc] at hlr
        simp only [Option.map_some', Option.some.injEq] at hlr
        subst hlr
        rcases List.mem_cons.mp hsrow with rfl | hscs
        · exact PartForm.lit _ (by simp [litParts])
        · exact partForm_row hmc s hscs
  · simp only [List.mem_cons, List.not_mem_nil, or_false] at hs
    rcases hs with rfl | rfl
    · exact PartForm.lit _ (by simp [litParts])
    · exact PartForm.lit _ (by simp [litParts])

/-- C10: every line of the document is a fixed template line, the style
sheet, or a template whose holes hold only `html_escape` output or a
data URI; and `html_escape` output (like a data URI) contains no
markup-significant character.  Hence the title, the filenames, the model
labels, the subfolder names, and the directory paths are escaped at
every occurrence and can introduce no unescaped markup. -/
theorem claim_C10 :
    (∀ s : String, NoMarkup (html_escape s)) ∧
    (∀ (p : FsPath) (bytes : List Nat),
      NoMarkup ("data:" ++ guess_mime p ++ ";base64," ++
        String.mk (b64encodeList bytes))) ∧
    (∀ (fs : FS) (org_dir : FsPath) (models : List FsPath)
        (subs : List String) (title : String) (max_height : Nat)
        (ps : List String),
      build_parts fs org_dir models subs title max_height = some ps →
        ∀ s ∈ ps, PartForm s) := by
  refine ⟨escape_noMarkup, dataUri_noMarkup, ?_⟩
  intro fs org_dir models subs title max_height ps h s hs
  unfold build_parts at h
  cases ho : optMap (sectionParts fs org_dir models subs)
      (list_org_files fs org_dir) with
  | none => rw [ho] at h; simp at h
  | some secs =>
      rw [ho] at h
      simp only [Option.some.injEq] at h
      subst h
      simp only [List.append_assoc, List.mem_append] at hs
      rcases hs with hs | hs | hs
      · unfold prefixParts at hs
        simp only [List.mem_cons, List.not_mem_nil, or_false] at hs
        rcases hs with rfl | rfl | rfl | rfl | rfl | rfl | rfl | rfl | rfl |
          rfl | rfl | rfl | rfl | rfl
        · exact PartForm.lit _ (by simp [litParts])
        · exact PartForm.lit _ (by simp [litParts])
        · exact PartForm.wrapped "<title>" "</title>" title (by simp [wrapPairs])
        · exact PartForm.lit _ (by simp [litParts])
        · exact PartForm.lit _ (by simp [litParts])
        · exact PartForm.css subs.length max_height
        · exact PartForm.lit _ (by simp [litParts])
        · exact PartForm.lit _ (by simp [litParts])
        · exact PartForm.wrapped "<h1>" "</h1>" title (by simp [wrapPairs])
        · exact PartForm.lit _ (by simp [litParts])
        · exact PartForm.wrapped "Org: <code>" "</code> | " (pathStr org_dir)
            (by simp [wrapPairs])
        · exact PartForm.modelsLine models
        · exact PartForm.foldersLine subs
        · exact PartForm.lit _ (by simp [litParts])
      · obtain ⟨sec, hsec, hssec⟩ := List.mem_flatten.mp hs
        obtain ⟨fname, _, hf⟩ := optMap_mem ho hsec
        exact partForm_section hf s hssec
      · simp only [List.mem_cons, List.not_mem_nil, or_false] at hs
        subst hs
        exact PartForm.lit _ (by simp [litParts])

theorem claim_C10_witness :
    NoMarkup (html_escape "<script>alert(1)</script>") ∧
    PartForm (((build_parts fsW ["org"] [["mA"]] ["s1"] "T" 420).getD
      []).getD 0 "") :=
  ⟨claim_C10.1 "<script>alert(1)</script>",
    claim_C10.2.2 fsW ["org"] [["mA"]] ["s1"] "T" 420
      ((build_parts fsW ["org"] [["mA"]] ["s1"] "T" 420).getD []) (by rfl)
      (((build_parts fsW ["org"] [["mA"]] ["s1"] "T" 420).getD []).getD 0 "")
      (by decide)⟩
